import Mathlib

/-!
Verification development for the sbomattr attribution engine.

The Go sources are shallowly embedded as Lean definitions:

* `attribution/…` (part_004, url.go) — the `Attribution` record, the purl
  parsing front end and the purl-to-registry-URL mapping table;
* `spdxextract/…` — SPDX document model, parser and resolver;
* `cyclonedxextract/…` — CycloneDX BOM model, parser and resolver;
* `internal/sbom/sbom.go` — format detection;
* part_003 — deduplication;
* `sbomattr.go` — the orchestrator (`Process`, `ProcessFiles`).

Pointer-valued optional fields (`*string`) become `Option String`;
nil slices that the code distinguishes from empty ones become
`Option (List _)`; Go `(value, error)` returns become `Except`.
Diagnostic loggers are write-only side channels and are dropped.
-/

namespace SbomAttr

/-- Decidable equality for Except results, used to evaluate the
embedded functions on concrete inputs. -/
instance exceptDecEq {ε α : Type} [DecidableEq ε] [DecidableEq α] : DecidableEq (Except ε α)
  | .ok a, .ok b =>
    if h : a = b then .isTrue (by simp [h]) else .isFalse (by simp [h])
  | .error a, .error b =>
    if h : a = b then .isTrue (by simp [h]) else .isFalse (by simp [h])
  | .ok _, .error _ => .isFalse (by simp)
  | .error _, .ok _ => .isFalse (by simp)

/-- The Attribution record from the attribution package (part_004):
name and purl are plain strings (purl uses the empty string as an
absence sentinel), license and url are nullable pointers. -/
structure Attribution where
  name : String
  license : Option String := none
  url : Option String := none
  purl : String := ""
  deriving DecidableEq

/-- Error outcomes of PurlToURL (url.go): the two sentinel errors
ErrEmptyPurl and ErrUnsupportedPurlType, plus wrapped parse errors
coming from the purl grammar parser. -/
inductive PurlError where
  | emptyPurl
  | parseError (msg : String)
  | unsupportedPurlType
  deriving DecidableEq

/-- The parsed purl components used by the mapper, from the external
packageurl-go PackageURL struct (Type, Namespace, Name, Version; the
Go field names Type and Namespace are Lean keywords, hence ptype and
nspace). Qualifiers and subpath are dropped: the mapper never reads
them. -/
structure PackageURL where
  ptype : String
  nspace : String
  name : String
  version : String
  deriving DecidableEq

/-- buildCargoURL from url.go. Sprintf interpolation of string
arguments is modelled by string concatenation throughout. -/
def buildCargoURL (purl : PackageURL) : String :=
  "https://crates.io/crates/" ++ purl.name ++ "/" ++ purl.version

/-- buildComposerURL from url.go. -/
def buildComposerURL (purl : PackageURL) : String :=
  "https://packagist.org/packages/" ++ purl.nspace ++ "/" ++ purl.name ++ "#" ++ purl.version

/-- buildGemURL from url.go. -/
def buildGemURL (purl : PackageURL) : String :=
  "https://rubygems.org/gems/" ++ purl.name ++ "/versions/" ++ purl.version

/-- buildGolangURL from url.go: the version is not used, and the
namespace segment appears only when non-empty. -/
def buildGolangURL (purl : PackageURL) : String :=
  if purl.nspace ≠ "" then
    "https://pkg.go.dev/" ++ purl.nspace ++ "/" ++ purl.name
  else
    "https://pkg.go.dev/" ++ purl.name

/-- buildMavenURL from url.go. -/
def buildMavenURL (purl : PackageURL) : String :=
  "https://central.sonatype.com/artifact/" ++ purl.nspace ++ "/" ++ purl.name ++ "/" ++ purl.version

/-- buildNPMURL from url.go: the namespace segment appears only when
non-empty. -/
def buildNPMURL (purl : PackageURL) : String :=
  if purl.nspace ≠ "" then
    "https://www.npmjs.com/package/" ++ purl.nspace ++ "/" ++ purl.name ++ "/v/" ++ purl.version
  else
    "https://www.npmjs.com/package/" ++ purl.name ++ "/v/" ++ purl.version

/-- buildNugetURL from url.go. -/
def buildNugetURL (purl : PackageURL) : String :=
  "https://www.nuget.org/packages/" ++ purl.name ++ "/" ++ purl.version

/-- buildPubURL from url.go. -/
def buildPubURL (purl : PackageURL) : String :=
  "https://pub.dev/packages/" ++ purl.name ++ "/versions/" ++ purl.version

/-- buildPypiURL from url.go. -/
def buildPypiURL (purl : PackageURL) : String :=
  "https://pypi.org/project/" ++ purl.name ++ "/" ++ purl.version ++ "/"

/-- buildGithubURL from url.go. -/
def buildGithubURL (purl : PackageURL) : String :=
  "https://github.com/" ++ purl.nspace ++ "/" ++ purl.name ++ "/tree/" ++ purl.version

/-- buildDockerHubURL from url.go: official images (empty or library
namespace) use the underscore prefix, all others the r/ prefix. -/
def buildDockerHubURL (purl : PackageURL) : String :=
  if purl.nspace ≠ "" ∧ purl.nspace ≠ "library" then
    "https://hub.docker.com/r/" ++ purl.nspace ++ "/" ++ purl.name
  else
    "https://hub.docker.com/_/" ++ purl.name

/-- buildDebURL from url.go. -/
def buildDebURL (purl : PackageURL) : String :=
  "https://packages.debian.org/" ++ purl.name

/-- buildRpmURL from url.go. -/
def buildRpmURL (purl : PackageURL) : String :=
  "https://rpmfind.net/linux/rpm2html/search.php?query=" ++ purl.name

/-- buildApkURL from url.go. -/
def buildApkURL (purl : PackageURL) : String :=
  "https://pkgs.alpinelinux.org/packages?name=" ++ purl.name

/-- buildHexURL from url.go. -/
def buildHexURL (purl : PackageURL) : String :=
  "https://hex.pm/packages/" ++ purl.name ++ "/" ++ purl.version

/-- buildCocoapodsURL from url.go. -/
def buildCocoapodsURL (purl : PackageURL) : String :=
  "https://cocoapods.org/pods/" ++ purl.name

/-- buildCondaURL from url.go: the anaconda namespace is substituted
when the purl has none. -/
def buildCondaURL (purl : PackageURL) : String :=
  if purl.nspace ≠ "" then
    "https://anaconda.org/" ++ purl.nspace ++ "/" ++ purl.name
  else
    "https://anaconda.org/anaconda/" ++ purl.name

/-- buildBitbucketURL from url.go. -/
def buildBitbucketURL (purl : PackageURL) : String :=
  "https://bitbucket.org/" ++ purl.nspace ++ "/" ++ purl.name ++ "/src/" ++ purl.version

/-- mapPurlToURL from url.go: the per-type dispatch table. Every type
outside the supported set, including recognized-but-unmapped ecosystem
types, falls into the default branch and fails with
ErrUnsupportedPurlType. The optional debug logger is dropped. -/
def mapPurlToURL (purl : PackageURL) : Except PurlError String :=
  match purl.ptype with
  | "cargo" => .ok (buildCargoURL purl)
  | "composer" => .ok (buildComposerURL purl)
  | "gem" => .ok (buildGemURL purl)
  | "golang" => .ok (buildGolangURL purl)
  | "maven" => .ok (buildMavenURL purl)
  | "npm" => .ok (buildNPMURL purl)
  | "nuget" => .ok (buildNugetURL purl)
  | "pub" => .ok (buildPubURL purl)
  | "pypi" => .ok (buildPypiURL purl)
  | "github" => .ok (buildGithubURL purl)
  | "docker" | "oci" => .ok (buildDockerHubURL purl)
  | "deb" => .ok (buildDebURL purl)
  | "rpm" => .ok (buildRpmURL purl)
  | "apk" => .ok (buildApkURL purl)
  | "hex" => .ok (buildHexURL purl)
  | "cocoapods" => .ok (buildCocoapodsURL purl)
  | "conda" => .ok (buildCondaURL purl)
  | "bitbucket" => .ok (buildBitbucketURL purl)
  | _ => .error .unsupportedPurlType

/-- Helper splitting a character list at the first occurrence of a
separator, as strings.Cut and strings.SplitN with limit 2 do. -/
def cutFirst (c : Char) : List Char → Option (List Char × List Char)
  | [] => none
  | x :: xs =>
    if x = c then some ([], xs)
    else
      match cutFirst c xs with
      | none => none
      | some (before, after) => some (x :: before, after)

/-- Helper splitting a character list at the last occurrence of a
separator, as strings.LastIndex-based splitting does. -/
def cutLast (c : Char) (xs : List Char) : Option (List Char × List Char) :=
  match cutFirst c xs.reverse with
  | none => none
  | some (rafter, rbefore) => some (rbefore.reverse, rafter.reverse)

/-- Helper modelling strings.TrimSpace from the Go standard library:
whitespace is stripped from both ends. -/
def trimSpace (s : String) : String :=
  String.mk (((s.toList.dropWhile Char.isWhitespace).reverse.dropWhile Char.isWhitespace).reverse)

/-- Helper lowercasing a string character by character, as
strings.ToLower does on ASCII data. -/
def lowerString (s : String) : String :=
  String.mk (s.toList.map Char.toLower)

/-- Modelled from the external packageurl-go dependency, whose source is
not part of this repository: FromString splits a purl string into
scheme, type, namespace, name and version. The scheme up to the first
colon must be pkg; the type extends to the next slash and is
lowercased; a subpath after the last hash and qualifiers after the last
question mark are stripped; the version follows the last at sign; the
name is the last slash-separated segment of what remains, the namespace
everything before it. Percent-decoding and qualifier parsing are not
modelled, no claim depends on them. Failures are parse errors distinct
from the two mapper sentinels. -/
def purlFromString (s : String) : Except String PackageURL :=
  match cutFirst ':' s.toList with
  | none => .error "purl is missing the scheme separator"
  | some (scheme, afterScheme) =>
    if String.mk scheme ≠ "pkg" then .error "purl scheme is not pkg"
    else
      let afterScheme := afterScheme.dropWhile (· = '/')
      match cutFirst '/' afterScheme with
      | none => .error "purl is missing the type"
      | some (typ, rest) =>
        let rest := match cutLast '#' rest with
          | some (before, _) => before
          | none => rest
        let rest := match cutLast '?' rest with
          | some (before, _) => before
          | none => rest
        let (rest, version) := match cutLast '@' rest with
          | some (before, after) => (before, String.mk after)
          | none => (rest, "")
        let (nspace, name) := match cutLast '/' rest with
          | some (before, after) => (String.mk before, String.mk after)
          | none => ("", String.mk rest)
        if String.mk typ = "" then .error "purl type is empty"
        else if name = "" then .error "purl is missing the name"
        else .ok ⟨lowerString (String.mk typ), nspace, name, version⟩

/-- PurlToURL from url.go: an empty or whitespace-only purl string
fails with ErrEmptyPurl before any parsing; a parse failure is wrapped
and propagated; otherwise the parsed purl goes through the mapping
table. The optional logger is dropped. -/
def PurlToURL (purlString : String) : Except PurlError String :=
  if trimSpace purlString = "" then .error .emptyPurl
  else
    match purlFromString purlString with
    | .error msg => .error (.parseError ("parse purl: " ++ msg))
    | .ok purl => mapPurlToURL purl

example : PurlToURL "pkg:npm/lodash@4.17.21" = .ok "https://www.npmjs.com/package/lodash/v/4.17.21" := by decide
example : PurlToURL "pkg:mlflow/model@1.0.0" = .error .unsupportedPurlType := by decide
example : PurlToURL "not-a-valid-purl" = .error (.parseError "parse purl: purl is missing the scheme separator") := by decide
example : PurlToURL "   " = .error .emptyPurl := by decide
example : PurlToURL "pkg:golang/github.com/stretchr/testify@v1.8.0" = .ok "https://pkg.go.dev/github.com/stretchr/testify" := by decide

namespace spdxextract

/-- ExternalRef from spdxextract/types.go. -/
structure ExternalRef where
  referenceCategory : String := ""
  referenceType : String := ""
  referenceLocator : String := ""
  deriving DecidableEq

/-- Package from spdxextract/types.go. The ExternalRefs nil slice and
the empty slice behave identically everywhere, so the field is a plain
list. -/
structure Package where
  name : String := ""
  versionInfo : String := ""
  homepage : String := ""
  licenseConcluded : String := ""
  licenseDeclared : String := ""
  externalRefs : List ExternalRef := []
  deriving DecidableEq

/-- Document from spdxextract/types.go. The packages field keeps the
nil-slice versus empty-slice distinction because ExtractPackages
checks doc.Packages against nil explicitly. -/
structure Document where
  spdxVersion : String := ""
  spdxID : String := ""
  packages : Option (List Package) := none
  deriving DecidableEq

/-- Helper naming the license fallback computed inline by
ExtractPackages (parser.go): concluded unless empty or NOASSERTION,
else declared verbatim. -/
def resolvedLicense (pkg : Package) : String :=
  if pkg.licenseConcluded = "" ∨ pkg.licenseConcluded = "NOASSERTION" then
    pkg.licenseDeclared
  else
    pkg.licenseConcluded

/-- Helper naming the purl scan of ExtractPackages (parser.go): the
referenceLocator of the first external reference whose referenceType is
purl, else the empty string. -/
def purlOfRefs : List ExternalRef → String
  | [] => ""
  | ref :: rest =>
    if ref.referenceType = "purl" then ref.referenceLocator
    else purlOfRefs rest

/-- Loop body of ExtractPackages (parser.go, the resolver revision
calling the two-argument PurlToURL): license is always the fallback
value behind a pointer; purl is the first purl-typed external
reference; the URL prefers a usable homepage and otherwise converts a
non-empty purl, swallowing conversion errors. -/
def attributionOfPackage (pkg : Package) : Attribution :=
  let purl := purlOfRefs pkg.externalRefs
  { name := pkg.name
    license := some (resolvedLicense pkg)
    purl := purl
    url :=
      if pkg.homepage ≠ "" ∧ pkg.homepage ≠ "NONE" ∧ pkg.homepage ≠ "NOASSERTION" then
        some pkg.homepage
      else if purl ≠ "" then
        match PurlToURL purl with
        | .ok u => some u
        | .error _ => none
      else
        none }

/-- ExtractPackages from spdxextract (parser.go): nil document or nil
package slice yield the empty list, otherwise one attribution per
package in order. -/
def ExtractPackages (doc : Option Document) : List Attribution :=
  match doc with
  | none => []
  | some d =>
    match d.packages with
    | none => []
    | some pkgs => pkgs.map attributionOfPackage

end spdxextract

namespace cyclonedxextract

/-- License from the cyclonedxextract types (part_001). -/
structure License where
  id : String := ""
  name : String := ""
  expression : String := ""
  text : Option String := none
  deriving DecidableEq

/-- LicenseChoice from the cyclonedxextract types (part_001): wraps a
nullable license object. -/
structure LicenseChoice where
  license : Option License := none
  deriving DecidableEq

/-- ExternalReference. Modelled from the spec: the declaration is
missing from the sources (only the extractor and its tests use it);
section 3 of the spec gives it as a record of a type tag and a url. -/
structure ExternalReference where
  refType : String := ""
  url : String := ""
  deriving DecidableEq

/-- Component from the cyclonedxextract types (part_001) plus the
externalReferences field the extractor reads. The licenses field is a
nullable pointer to a list. -/
structure Component where
  name : String := ""
  version : String := ""
  purl : String := ""
  licenses : Option (List LicenseChoice) := none
  externalReferences : List ExternalReference := []
  deriving DecidableEq

/-- BOM from the cyclonedxextract types (part_001). Components keeps
the nil-slice distinction because ExtractPackages checks it against
nil. -/
structure BOM where
  bomFormat : String := ""
  specVersion : String := ""
  components : Option (List Component) := none
  deriving DecidableEq

/-- extractLicense from cyclonedxextract/extractor.go: the first
license entry decides, preferring expression, then id, then name;
anything else yields no license. -/
def extractLicense (licenses : Option (List LicenseChoice)) : Option String :=
  match licenses with
  | none => none
  | some [] => none
  | some (first :: _) =>
    match first.license with
    | none => none
    | some lic =>
      if lic.expression ≠ "" then some lic.expression
      else if lic.id ≠ "" then some lic.id
      else if lic.name ≠ "" then some lic.name
      else none

/-- Inner loop of findBestExternalRefURL: the first reference of the
given type with a non-empty url, in document order. -/
def findRefOfType (refType : String) : List ExternalReference → Option String
  | [] => none
  | ref :: rest =>
    if ref.refType = refType ∧ ref.url ≠ "" then some ref.url
    else findRefOfType refType rest

/-- The priority order of reference types hard-coded in
findBestExternalRefURL. -/
def priorityOrder : List String := ["website", "distribution", "documentation", "vcs"]

/-- Outer loop of findBestExternalRefURL over the priority types. -/
def findBestAux (refs : List ExternalReference) : List String → Option String
  | [] => none
  | t :: ts =>
    match findRefOfType t refs with
    | some u => some u
    | none => findBestAux refs ts

/-- findBestExternalRefURL from cyclonedxextract/extractor.go: an empty
reference list short-circuits, otherwise the nested loop over priority
types (outer) and references (inner). -/
def findBestExternalRefURL (refs : List ExternalReference) : Option String :=
  if refs.isEmpty then none else findBestAux refs priorityOrder

/-- Loop body of ExtractPackages from cyclonedxextract/extractor.go:
purl taken verbatim, URL from the best external reference with the purl
mapper as error-swallowing fallback (the call site uses the mapper
variant that turns failures into a nil pointer), license via
extractLicense. -/
def attributionOfComponent (c : Component) : Attribution :=
  { name := c.name
    purl := c.purl
    url :=
      match findBestExternalRefURL c.externalReferences with
      | some u => some u
      | none =>
        if c.purl ≠ "" then
          match PurlToURL c.purl with
          | .ok u => some u
          | .error _ => none
        else
          none
    license := extractLicense c.licenses }

/-- ExtractPackages from cyclonedxextract/extractor.go: nil BOM or nil
component slice yield the empty list, otherwise one attribution per
component in order. -/
def ExtractPackages (bom : Option BOM) : List Attribution :=
  match bom with
  | none => []
  | some b =>
    match b.components with
    | none => []
    | some comps => comps.map attributionOfComponent

end cyclonedxextract

/-- Key computed per entry by Deduplicate (part_003): the purl when
non-empty, the name otherwise. -/
def attrKey (a : Attribution) : String :=
  if a.purl = "" then a.name else a.purl

/-- Loop of Deduplicate (part_003) with the seen set made explicit:
keep an attribution only when its key has not been seen before. -/
def DeduplicateAux (seen : List String) : List Attribution → List Attribution
  | [] => []
  | a :: rest =>
    if attrKey a ∈ seen then DeduplicateAux seen rest
    else a :: DeduplicateAux (attrKey a :: seen) rest

/-- Deduplicate from the attribution package (part_003): a single
order-preserving pass keeping the first attribution per key. The
optional debug logger is dropped. -/
def Deduplicate (attributions : List Attribution) : List Attribution :=
  DeduplicateAux [] attributions

/-- Model of a JSON value, covering what encoding/json produces for the
generic map and struct decoders used by the parsers. -/
inductive Json where
  | null
  | bool (b : Bool)
  | num (n : Int)
  | str (s : String)
  | arr (elems : List Json)
  | obj (fields : List (String × Json))

/-- Helper deciding whether a JSON value is an object, as the Go type
assertion to a map does. -/
def Json.isObj : Json → Bool
  | .obj _ => true
  | _ => false

/-- Helper deciding whether a JSON value is the null literal. -/
def Json.isNull : Json → Bool
  | .null => true
  | _ => false

/-- Raw input bytes as the parsers see them: either syntactically
invalid JSON or a JSON value. -/
inductive RawData where
  | malformed
  | json (j : Json)

/-- Member lookup in a decoded JSON object: encoding/json lets a later
duplicate key overwrite an earlier one, so the last binding wins. -/
def lookupField (fields : List (String × Json)) (key : String) : Option Json :=
  ((fields.filter (fun kv => kv.1 == key)).getLast?).map (fun kv => kv.2)

/-- Unmarshalling a JSON value into a Go map: an object yields its
fields, the null literal yields a nil map (no bindings, no error),
anything else is a type error. -/
def Json.asMapFields : Json → Option (List (String × Json))
  | .obj fields => some fields
  | .null => some []
  | _ => none

/-- Go type assertion of a decoded any value to string. -/
def stringAssert : Option Json → Option String
  | some (.str s) => some s
  | _ => none

/-- Unmarshalling a JSON value into a Go string field: null leaves the
zero value in place without error. -/
def decodeString : Json → Except String String
  | .str s => .ok s
  | .null => .ok ""
  | _ => .error "cannot unmarshal into string"

/-- Field-wise string decoding with permissive presence semantics: an
absent field keeps the zero value. -/
def decodeStringField (fields : List (String × Json)) (key : String) : Except String String :=
  match lookupField fields key with
  | none => .ok ""
  | some j => decodeString j

/-- Unmarshalling into a Go slice field, keeping the nil versus empty
distinction: absent or null gives nil (none), an array decodes
element-wise, anything else is a type error. -/
def decodeOptListField {α : Type} (dec : Json → Except String α)
    (fields : List (String × Json)) (key : String) : Except String (Option (List α)) :=
  match lookupField fields key with
  | none => .ok none
  | some .null => .ok none
  | some (.arr elems) => (elems.mapM dec).map some
  | some _ => .error "cannot unmarshal into slice"

/-- Unmarshalling into a Go slice field where the nil versus empty
distinction is never observed: absent and null give the empty list. -/
def decodeListField {α : Type} (dec : Json → Except String α)
    (fields : List (String × Json)) (key : String) : Except String (List α) :=
  match decodeOptListField dec fields key with
  | .error e => .error e
  | .ok none => .ok []
  | .ok (some xs) => .ok xs

namespace spdxextract

/-- Unmarshalling a JSON value into an ExternalRef: null is a no-op on
the zero value, an object decodes field-wise, anything else is a type
error. -/
def decodeExternalRef : Json → Except String ExternalRef
  | .null => .ok {}
  | .obj fields => do
    let cat ← decodeStringField fields "referenceCategory"
    let typ ← decodeStringField fields "referenceType"
    let loc ← decodeStringField fields "referenceLocator"
    pure ⟨cat, typ, loc⟩
  | _ => .error "cannot unmarshal into ExternalRef"

/-- Unmarshalling a JSON value into a Package (types.go field list). -/
def decodePackage : Json → Except String Package
  | .null => .ok {}
  | .obj fields => do
    let name ← decodeStringField fields "name"
    let version ← decodeStringField fields "versionInfo"
    let homepage ← decodeStringField fields "homepage"
    let concluded ← decodeStringField fields "licenseConcluded"
    let declared ← decodeStringField fields "licenseDeclared"
    let refs ← decodeListField decodeExternalRef fields "externalRefs"
    pure ⟨name, version, homepage, concluded, declared, refs⟩
  | _ => .error "cannot unmarshal into Package"

/-- Unmarshalling a JSON value into a Document (types.go field list). -/
def decodeDocument : Json → Except String Document
  | .null => .ok {}
  | .obj fields => do
    let version ← decodeStringField fields "spdxVersion"
    let id ← decodeStringField fields "SPDXID"
    let pkgs ← decodeOptListField decodePackage fields "packages"
    pure ⟨version, id, pkgs⟩
  | _ => .error "cannot unmarshal into Document"

/-- unwrapGitHubSBOM from spdxextract/parser.go: unmarshal generically
into a map (failing on malformed bytes or a non-object), then
substitute the raw value of a top-level sbom key unconditionally,
whatever shape that value has; without the key the original value is
returned. -/
def unwrapGitHubSBOM : RawData → Except String Json
  | .malformed => .error "failed to parse JSON"
  | .json j =>
    match j.asMapFields with
    | none => .error "failed to parse JSON: not an object"
    | some fields =>
      match lookupField fields "sbom" with
      | some sbomData => .ok sbomData
      | none => .ok j

/-- ParseSBOM from spdxextract/parser.go: unwrap, then unmarshal the
result into a Document. -/
def ParseSBOM (data : RawData) : Except String Document :=
  match unwrapGitHubSBOM data with
  | .error e => .error e
  | .ok unwrapped =>
    match decodeDocument unwrapped with
    | .error e => .error ("failed to parse SBOM JSON: " ++ e)
    | .ok doc => .ok doc

end spdxextract

namespace cyclonedxextract

/-- Unmarshalling a JSON value into a License (part_001 field list);
the nested text object contributes only its content string here. -/
def decodeLicense : Json → Except String License
  | .null => .ok {}
  | .obj fields => do
    let id ← decodeStringField fields "id"
    let name ← decodeStringField fields "name"
    let expression ← decodeStringField fields "expression"
    let text ←
      match lookupField fields "text" with
      | none => pure none
      | some .null => pure none
      | some (.obj tfields) => (decodeStringField tfields "content").map some
      | some _ => .error "cannot unmarshal into LicenseText"
    pure ⟨id, name, expression, text⟩
  | _ => .error "cannot unmarshal into License"

/-- Unmarshalling a JSON value into a LicenseChoice: the license field
is a nullable pointer. -/
def decodeLicenseChoice : Json → Except String LicenseChoice
  | .null => .ok {}
  | .obj fields =>
    match lookupField fields "license" with
    | none => .ok {}
    | some .null => .ok {}
    | some j => (decodeLicense j).map (fun lic => ⟨some lic⟩)
  | _ => .error "cannot unmarshal into LicenseChoice"

/-- Unmarshalling a JSON value into an ExternalReference (field names
from the CycloneDX schema used by the extractor tests). -/
def decodeExternalReference : Json → Except String ExternalReference
  | .null => .ok {}
  | .obj fields => do
    let typ ← decodeStringField fields "type"
    let url ← decodeStringField fields "url"
    pure ⟨typ, url⟩
  | _ => .error "cannot unmarshal into ExternalReference"

/-- Unmarshalling a JSON value into a Component (part_001 field list
plus externalReferences). -/
def decodeComponent : Json → Except String Component
  | .null => .ok {}
  | .obj fields => do
    let name ← decodeStringField fields "name"
    let version ← decodeStringField fields "version"
    let purl ← decodeStringField fields "purl"
    let licenses ← decodeOptListField decodeLicenseChoice fields "licenses"
    let refs ← decodeListField decodeExternalReference fields "externalReferences"
    pure ⟨name, version, purl, licenses, refs⟩
  | _ => .error "cannot unmarshal into Component"

/-- Unmarshalling a JSON value into a BOM (part_001 field list). -/
def decodeBOM : Json → Except String BOM
  | .null => .ok {}
  | .obj fields => do
    let bomFormat ← decodeStringField fields "bomFormat"
    let specVersion ← decodeStringField fields "specVersion"
    let comps ← decodeOptListField decodeComponent fields "components"
    pure ⟨bomFormat, specVersion, comps⟩
  | _ => .error "cannot unmarshal into BOM"

/-- ParseSBOM from cyclonedxextract/parser.go: unmarshal the raw bytes
directly into a BOM, with no envelope unwrap. -/
def ParseSBOM (data : RawData) : Except String BOM :=
  match data with
  | .malformed => .error "failed to parse CycloneDX JSON"
  | .json j =>
    match decodeBOM j with
    | .error e => .error ("failed to parse CycloneDX JSON: " ++ e)
    | .ok bom => .ok bom

end cyclonedxextract

namespace sbom

/-- Error message of DetectFormat when no marker matches
(internal/sbom/sbom.go). -/
def unknownFormatMsg : String :=
  "unknown SBOM format: could not detect SPDX or CycloneDX markers"

/-- CycloneDX branch of the DetectFormat classification: a bomFormat
key holding exactly the string CycloneDX. -/
def classifyCycloneDX (fields : List (String × Json)) : Except String String :=
  match stringAssert (lookupField fields "bomFormat") with
  | some bomFormat =>
    if bomFormat = "CycloneDX" then .ok "cyclonedx" else .error unknownFormatMsg
  | none => .error unknownFormatMsg

/-- Marker classification of DetectFormat on the working map: a
spdxVersion key of any type, or a non-empty string SPDXID, means spdx;
otherwise the CycloneDX marker is tried. -/
def classifyFields (fields : List (String × Json)) : Except String String :=
  if (lookupField fields "spdxVersion").isSome then .ok "spdx"
  else
    match stringAssert (lookupField fields "SPDXID") with
    | some spdxID =>
      if spdxID ≠ "" then .ok "spdx" else classifyCycloneDX fields
    | none => classifyCycloneDX fields

/-- DetectFormat from internal/sbom/sbom.go: unmarshal generically,
replace the working map with the value of a top-level sbom key only
when that value is itself an object, then classify by markers. -/
def DetectFormat (data : RawData) : Except String String :=
  match data with
  | .malformed => .error "invalid JSON"
  | .json j =>
    match j.asMapFields with
    | none => .error "cannot unmarshal JSON into a map"
    | some fields =>
      let working :=
        match lookupField fields "sbom" with
        | some (.obj inner) => inner
        | _ => fields
      classifyFields working

end sbom

/-- Error outcomes of the orchestrator (sbomattr.go), covering context
cancellation, the wrapped detection and parse failures, the
unreachable unknown-format branch and the empty-batch failure. -/
inductive SbomError where
  | cancelled
  | detectFormat (msg : String)
  | parseSPDX (msg : String)
  | parseCycloneDX (msg : String)
  | unsupportedFormat (format : String)
  | noAttributionsExtracted
  deriving DecidableEq

/-- Process from sbomattr.go: one cancellation check up front, format
detection, then dispatch to the matching parser and resolver pair. The
cancellation token is the snapshot of ctx.Done() at the check; the
optional logger is dropped. -/
def Process (cancelled : Bool) (data : RawData) : Except SbomError (List Attribution) :=
  if cancelled then .error .cancelled
  else
    match sbom.DetectFormat data with
    | .error msg => .error (.detectFormat msg)
    | .ok format =>
      if format = "spdx" then
        match spdxextract.ParseSBOM data with
        | .error msg => .error (.parseSPDX msg)
        | .ok doc => .ok (spdxextract.ExtractPackages (some doc))
      else if format = "cyclonedx" then
        match cyclonedxextract.ParseSBOM data with
        | .error msg => .error (.parseCycloneDX msg)
        | .ok bom => .ok (cyclonedxextract.ExtractPackages (some bom))
      else .error (.unsupportedFormat format)

/-- Loop of ProcessFiles from sbomattr.go with the accumulator and the
position in the batch made explicit: before each input the
cancellation signal is checked (ctx i is the state of ctx.Done() when
input i is reached); a failed read (fs returns none) or a failed
Process call skips the input; an exhausted batch fails when nothing was
collected and otherwise deduplicates. -/
def ProcessFilesAux (ctx : Nat → Bool) (fs : String → Option RawData)
    (i : Nat) (acc : List Attribution) : List String → Except SbomError (List Attribution)
  | [] => if acc = [] then .error .noAttributionsExtracted else .ok (Deduplicate acc)
  | f :: rest =>
    if ctx i then .error .cancelled
    else
      match fs f with
      | none => ProcessFilesAux ctx fs (i + 1) acc rest
      | some data =>
        match Process (ctx i) data with
        | .error _ => ProcessFilesAux ctx fs (i + 1) acc rest
        | .ok attrs => ProcessFilesAux ctx fs (i + 1) (acc ++ attrs) rest

/-- ProcessFiles from sbomattr.go: the multi-input path over a batch of
filenames, with the filesystem modelled as a map from filename to read
outcome (none models a read error). -/
def ProcessFiles (ctx : Nat → Bool) (fs : String → Option RawData)
    (filenames : List String) : Except SbomError (List Attribution) :=
  ProcessFilesAux ctx fs 0 [] filenames

example :
    Process false (.json (.obj [("spdxVersion", .str "SPDX-2.3"), ("SPDXID", .str "SPDXRef-DOCUMENT"),
      ("packages", .arr [.obj [("name", .str "react"), ("licenseConcluded", .str "MIT"),
        ("externalRefs", .arr [.obj [("referenceType", .str "purl"),
          ("referenceLocator", .str "pkg:npm/react@18.2.0")]])]])])) =
    .ok [{ name := "react", license := some "MIT",
           url := some "https://www.npmjs.com/package/react/v/18.2.0",
           purl := "pkg:npm/react@18.2.0" }] := by decide

example :
    Process false (.json (.obj [("bomFormat", .str "CycloneDX"), ("specVersion", .str "1.4"),
      ("components", .arr [.obj [("name", .str "lodash"), ("purl", .str "pkg:npm/lodash@4.17.21"),
        ("licenses", .arr [.obj [("license", .obj [("id", .str "MIT")])]])]])])) =
    .ok [{ name := "lodash", license := some "MIT",
           url := some "https://www.npmjs.com/package/lodash/v/4.17.21",
           purl := "pkg:npm/lodash@4.17.21" }] := by decide

example : Process true (.json (.obj [("spdxVersion", .str "SPDX-2.3")])) = .error .cancelled := by decide

/-- The supported set of purl types from the mapping table of section
4.5 of the spec. -/
def supportedPurlTypes : List String :=
  ["cargo", "composer", "gem", "golang", "maven", "npm", "nuget", "pub", "pypi",
   "github", "docker", "oci", "deb", "rpm", "apk", "hex", "cocoapods", "conda", "bitbucket"]

/-- Registry URL templates written from the words of the section 4.5
table of the spec, including the namespace-dependent branches: golang
and npm prepend the namespace only when non-empty and golang never uses
the version; docker and oci use the underscore form when the namespace
is empty or exactly library; conda substitutes the namespace anaconda
when the purl has none. The https scheme prefixes (www for npm and
nuget) come from the literal fixtures of section 8. Types outside the
table map to the empty placeholder, which the supportedness hypothesis
keeps unreachable. -/
def specRegistryURL (p : PackageURL) : String :=
  match p.ptype with
  | "cargo" => "https://crates.io/crates/" ++ p.name ++ "/" ++ p.version
  | "composer" => "https://packagist.org/packages/" ++ p.nspace ++ "/" ++ p.name ++ "#" ++ p.version
  | "gem" => "https://rubygems.org/gems/" ++ p.name ++ "/versions/" ++ p.version
  | "golang" =>
    if p.nspace = "" then "https://pkg.go.dev/" ++ p.name
    else "https://pkg.go.dev/" ++ p.nspace ++ "/" ++ p.name
  | "maven" => "https://central.sonatype.com/artifact/" ++ p.nspace ++ "/" ++ p.name ++ "/" ++ p.version
  | "npm" =>
    if p.nspace = "" then "https://www.npmjs.com/package/" ++ p.name ++ "/v/" ++ p.version
    else "https://www.npmjs.com/package/" ++ p.nspace ++ "/" ++ p.name ++ "/v/" ++ p.version
  | "nuget" => "https://www.nuget.org/packages/" ++ p.name ++ "/" ++ p.version
  | "pub" => "https://pub.dev/packages/" ++ p.name ++ "/versions/" ++ p.version
  | "pypi" => "https://pypi.org/project/" ++ p.name ++ "/" ++ p.version ++ "/"
  | "github" => "https://github.com/" ++ p.nspace ++ "/" ++ p.name ++ "/tree/" ++ p.version
  | "docker" | "oci" =>
    if p.nspace = "" ∨ p.nspace = "library" then "https://hub.docker.com/_/" ++ p.name
    else "https://hub.docker.com/r/" ++ p.nspace ++ "/" ++ p.name
  | "deb" => "https://packages.debian.org/" ++ p.name
  | "rpm" => "https://rpmfind.net/linux/rpm2html/search.php?query=" ++ p.name
  | "apk" => "https://pkgs.alpinelinux.org/packages?name=" ++ p.name
  | "hex" => "https://hex.pm/packages/" ++ p.name ++ "/" ++ p.version
  | "cocoapods" => "https://cocoapods.org/pods/" ++ p.name
  | "conda" =>
    if p.nspace = "" then "https://anaconda.org/anaconda/" ++ p.name
    else "https://anaconda.org/" ++ p.nspace ++ "/" ++ p.name
  | "bitbucket" => "https://bitbucket.org/" ++ p.nspace ++ "/" ++ p.name ++ "/src/" ++ p.version
  | _ => ""

/-- C2: for every purl whose type is in the supported set, the mapper
succeeds and returns exactly the literal interpolation of namespace,
name and version into the template of the section 4.5 table, including
the namespace-dependent branches of golang, npm, maven, docker, oci and
conda. -/
theorem purl_registry_url_table (p : PackageURL) (h : p.ptype ∈ supportedPurlTypes) :
    mapPurlToURL p = .ok (specRegistryURL p) := by
  obtain ⟨t, ns, n, v⟩ := p
  simp only [supportedPurlTypes, List.mem_cons, List.not_mem_nil, or_false] at h
  rcases h with rfl | rfl | rfl | rfl | rfl | rfl | rfl | rfl | rfl | rfl | rfl | rfl | rfl |
    rfl | rfl | rfl | rfl | rfl | rfl <;>
    simp only [mapPurlToURL, specRegistryURL, buildCargoURL, buildComposerURL, buildGemURL,
      buildGolangURL, buildMavenURL, buildNPMURL, buildNugetURL, buildPubURL, buildPypiURL,
      buildGithubURL, buildDockerHubURL, buildDebURL, buildRpmURL, buildApkURL, buildHexURL,
      buildCocoapodsURL, buildCondaURL, buildBitbucketURL] <;>
    first
    | rfl
    | (by_cases hns : ns = "" <;> simp [hns])

/-- Witness for C2 at a concrete npm purl with no namespace. -/
theorem purl_registry_url_table_witness :
    ("npm" : String) ∈ supportedPurlTypes ∧
      mapPurlToURL ⟨"npm", "", "lodash", "4.17.21"⟩ =
        .ok (specRegistryURL ⟨"npm", "", "lodash", "4.17.21"⟩) :=
  ⟨by decide, purl_registry_url_table ⟨"npm", "", "lodash", "4.17.21"⟩ (by decide)⟩

/-- Helper: a string append whose left part is non-empty is
non-empty. -/
theorem left_append_ne_empty (s t : String) (h : s ≠ "") : s ++ t ≠ "" := by
  intro hc
  apply h
  have hd : s.data ++ t.data = [] := by
    have := congrArg String.data hc
    simpa [String.data_append] using this
  apply String.ext
  simpa using (List.append_eq_nil.mp hd).1

/-- Helper: every URL produced by the mapping table is a non-empty
string, since each template starts with a scheme literal. -/
theorem mapPurlToURL_ok_ne_empty (p : PackageURL) (u : String)
    (h : mapPurlToURL p = .ok u) : u ≠ "" := by
  unfold mapPurlToURL at h
  split at h <;>
    simp only [Except.ok.injEq, reduceCtorEq] at h <;>
    subst h <;>
    simp only [buildCargoURL, buildComposerURL, buildGemURL, buildGolangURL, buildMavenURL,
      buildNPMURL, buildNugetURL, buildPubURL, buildPypiURL, buildGithubURL, buildDockerHubURL,
      buildDebURL, buildRpmURL, buildApkURL, buildHexURL, buildCocoapodsURL, buildCondaURL,
      buildBitbucketURL] <;>
    first
    | (repeat1 apply left_append_ne_empty
       decide)
    | (split <;>
       · repeat1 apply left_append_ne_empty
         decide)

/-- Helper: the mapper never produces the empty-purl sentinel. -/
theorem mapPurlToURL_ne_emptyPurl (p : PackageURL) :
    mapPurlToURL p ≠ .error .emptyPurl := by
  unfold mapPurlToURL
  split <;> simp

/-- Helper: every URL produced by PurlToURL is non-empty. -/
theorem purlToURL_ok_ne_empty (s u : String) (h : PurlToURL s = .ok u) : u ≠ "" := by
  unfold PurlToURL at h
  split at h
  · exact absurd h (by simp)
  · split at h
    · exact absurd h (by simp)
    · exact mapPurlToURL_ok_ne_empty _ _ h

/-- Counterexample for C1: an SPDX package whose licenseConcluded and
licenseDeclared are both empty still yields an attribution whose
license is a pointer to the empty string, not an absent pointer, so a
resolver output can carry a license pointer to a value that was not
concretely resolved. -/
theorem spdx_license_pointer_counterexample :
    spdxextract.ExtractPackages
        (some { spdxVersion := "SPDX-2.3", spdxID := "SPDXRef-DOCUMENT",
                packages := some [{ name := "libexample" }] }) =
      [{ name := "libexample", license := some "", url := none, purl := "" }] ∧
    (some "" : Option String) ≠ none := by
  constructor
  · decide
  · decide

/-- Helper: the SPDX resolver never emits a pointer to the empty url
string: the homepage branch requires a non-empty homepage and the
mapper fallback only yields non-empty URLs. -/
theorem spdx_url_ne_some_empty (pkg : spdxextract.Package) :
    (spdxextract.attributionOfPackage pkg).url ≠ some "" := by
  unfold spdxextract.attributionOfPackage
  simp only
  split
  · next h => simp [h.1]
  · split
    · intro hc
      split at hc
      · next u heq => exact purlToURL_ok_ne_empty _ u heq (by simpa using hc)
      · exact Option.noConfusion hc
    · simp

/-- Helper: the first-entry license extraction never yields a pointer
to the empty string, every branch guards on non-emptiness. -/
theorem extractLicense_ne_some_empty (ls : Option (List cyclonedxextract.LicenseChoice)) :
    cyclonedxextract.extractLicense ls ≠ some "" := by
  unfold cyclonedxextract.extractLicense
  split
  · simp
  · simp
  · split
    · simp
    · split
      · next h => simpa using h
      · split
        · next h => simpa using h
        · split
          · next h => simpa using h
          · simp

/-- Helper: the inner reference scan only returns urls it checked to be
non-empty. -/
theorem findRefOfType_ne_some_empty (t : String) (refs : List cyclonedxextract.ExternalReference) :
    cyclonedxextract.findRefOfType t refs ≠ some "" := by
  induction refs with
  | nil => simp [cyclonedxextract.findRefOfType]
  | cons r rest ih =>
    unfold cyclonedxextract.findRefOfType
    split
    · next h => simpa using h.2
    · exact ih

/-- Helper: the nested priority scan only returns non-empty urls. -/
theorem findBest_ne_some_empty (refs : List cyclonedxextract.ExternalReference) :
    cyclonedxextract.findBestExternalRefURL refs ≠ some "" := by
  unfold cyclonedxextract.findBestExternalRefURL
  split
  · simp
  · show cyclonedxextract.findBestAux refs cyclonedxextract.priorityOrder ≠ some ""
    generalize cyclonedxextract.priorityOrder = ts
    induction ts with
    | nil => simp [cyclonedxextract.findBestAux]
    | cons t ts ih =>
      unfold cyclonedxextract.findBestAux
      split
      · next u heq =>
        intro hc
        exact findRefOfType_ne_some_empty t refs (by rw [heq]; simpa using hc)
      · exact ih

/-- Helper: the CycloneDX resolver never emits a pointer to the empty
url string. -/
theorem cdx_url_ne_some_empty (c : cyclonedxextract.Component) :
    (cyclonedxextract.attributionOfComponent c).url ≠ some "" := by
  unfold cyclonedxextract.attributionOfComponent
  simp only
  split
  · next u heq =>
    intro hc
    exact findBest_ne_some_empty c.externalReferences (by rw [heq]; simpa using hc)
  · split
    · intro hc
      split at hc
      · next u heq => exact purlToURL_ok_ne_empty _ u heq (by simpa using hc)
      · exact Option.noConfusion hc
    · simp

/-- C1 as amended: names are always plain strings; the url field of
both resolvers and the license field of the CycloneDX resolver are
present only with a concretely resolved non-empty value; the SPDX
resolver, however, always emits a non-null license pointer holding the
fallback value verbatim, which is the empty string when both license
fields are empty. -/
theorem resolver_output_invariant_amended (pkg : spdxextract.Package)
    (c : cyclonedxextract.Component) :
    (spdxextract.attributionOfPackage pkg).license = some (spdxextract.resolvedLicense pkg) ∧
    (spdxextract.attributionOfPackage pkg).url ≠ some "" ∧
    (cyclonedxextract.attributionOfComponent c).license ≠ some "" ∧
    (cyclonedxextract.attributionOfComponent c).url ≠ some "" :=
  ⟨rfl, spdx_url_ne_some_empty pkg, extractLicense_ne_some_empty c.licenses,
    cdx_url_ne_some_empty c⟩

/-- C5: for every SPDX package the resolved license value is
licenseConcluded unless that is empty or exactly NOASSERTION, in which
case it is licenseDeclared verbatim with no further fallback; in
particular concluded NOASSERTION with declared MIT resolves to MIT. -/
theorem spdx_license_fallback :
    (∀ (pkgs : List spdxextract.Package) (v id : String),
      (spdxextract.ExtractPackages (some ⟨v, id, some pkgs⟩)).map Attribution.license =
        pkgs.map (fun pkg =>
          some (if pkg.licenseConcluded = "" ∨ pkg.licenseConcluded = "NOASSERTION"
                then pkg.licenseDeclared else pkg.licenseConcluded))) ∧
    (spdxextract.attributionOfPackage
        { licenseConcluded := "NOASSERTION", licenseDeclared := "MIT" }).license = some "MIT" := by
  constructor
  · intro pkgs v id
    simp only [spdxextract.ExtractPackages, List.map_map]
    rfl
  · decide

/-- Helper: splitting at a character absent from the list finds
nothing. -/
theorem cutFirst_eq_none (c : Char) (l : List Char) (h : c ∉ l) : cutFirst c l = none := by
  induction l with
  | nil => rfl
  | cons x xs ih =>
    unfold cutFirst
    rw [if_neg (by rintro rfl; exact h (List.mem_cons_self x xs))]
    rw [ih (fun hm => h (List.mem_cons_of_mem x hm))]

/-- Helper: a string that trims to empty consists of whitespace
only. -/
theorem trimSpace_eq_empty_all_ws (s : String) (h : trimSpace s = "") :
    ∀ c ∈ s.toList, c.isWhitespace := by
  have hdata : (((s.toList.dropWhile Char.isWhitespace).reverse.dropWhile Char.isWhitespace).reverse) = [] := by
    have := congrArg String.data h
    simpa [trimSpace] using this
  have hrev : (s.toList.dropWhile Char.isWhitespace).reverse.dropWhile Char.isWhitespace = [] := by
    simpa using congrArg List.reverse hdata
  have hdrop : ∀ c ∈ (s.toList.dropWhile Char.isWhitespace).reverse, c.isWhitespace :=
    List.dropWhile_eq_nil_iff.mp hrev
  intro c hc
  rcases List.mem_append.mp
      ((List.takeWhile_append_dropWhile (p := Char.isWhitespace) (l := s.toList)) ▸ hc) with
    htk | hdr
  · exact List.mem_takeWhile_imp htk
  · exact hdrop c (List.mem_reverse.mpr hdr)

/-- Helper: a successfully parsed purl string is not whitespace-only,
since parsing demands a colon. -/
theorem purlFromString_ok_trim_ne (s : String) (p : PackageURL)
    (h : purlFromString s = .ok p) : trimSpace s ≠ "" := by
  intro ht
  have hws := trimSpace_eq_empty_all_ws s ht
  have hcolon : (':' : Char) ∉ s.toList := by
    intro hm
    have := hws ':' hm
    exact absurd this (by decide)
  unfold purlFromString at h
  rw [cutFirst_eq_none ':' s.toList hcolon] at h
  exact Except.noConfusion h

/-- Helper: outside the supported set the dispatch table falls into the
default branch. -/
theorem mapPurlToURL_unsupported (p : PackageURL) (h : p.ptype ∉ supportedPurlTypes) :
    mapPurlToURL p = .error .unsupportedPurlType := by
  unfold mapPurlToURL
  split <;> simp_all [supportedPurlTypes]

/-- C4: PurlToURL fails with the EmptyPurl sentinel exactly on
whitespace-trimmed-empty input; on other unparseable input it fails
with a wrapped parse error distinct from both sentinels; on input that
parses to an unsupported type, including recognized-but-unmapped
ecosystem types such as mlflow, it fails with the UnsupportedPurlType
sentinel. -/
theorem purl_to_url_error_taxonomy (s : String) :
    ((PurlToURL s = .error .emptyPurl) ↔ trimSpace s = "") ∧
    (∀ msg : String, purlFromString s = .error msg → trimSpace s ≠ "" →
      PurlToURL s = .error (.parseError ("parse purl: " ++ msg)) ∧
      PurlError.parseError ("parse purl: " ++ msg) ≠ .emptyPurl ∧
      PurlError.parseError ("parse purl: " ++ msg) ≠ .unsupportedPurlType) ∧
    (∀ p : PackageURL, purlFromString s = .ok p → p.ptype ∉ supportedPurlTypes →
      PurlToURL s = .error .unsupportedPurlType) ∧
    PurlToURL "pkg:mlflow/model@1.0.0" = .error .unsupportedPurlType ∧
    PurlToURL "" = .error .emptyPurl := by
  refine ⟨⟨?_, ?_⟩, ?_, ?_, by decide, by decide⟩
  · intro h
    by_contra ht
    unfold PurlToURL at h
    rw [if_neg ht] at h
    split at h
    · simp at h
    · exact mapPurlToURL_ne_emptyPurl _ h
  · intro ht
    unfold PurlToURL
    rw [if_pos ht]
  · intro msg hparse ht
    refine ⟨?_, by simp, by simp⟩
    unfold PurlToURL
    rw [if_neg ht, hparse]
  · intro p hok hns
    have ht := purlFromString_ok_trim_ne s p hok
    unfold PurlToURL
    rw [if_neg ht, hok]
    exact mapPurlToURL_unsupported p hns

/-- Witness for C4 at the concrete unparseable input from the spec
fixtures, together with the mlflow instance. -/
theorem purl_to_url_error_taxonomy_witness :
    PurlToURL "not-a-valid-purl" =
      .error (.parseError "parse purl: purl is missing the scheme separator") ∧
    PurlError.parseError "parse purl: purl is missing the scheme separator" ≠ .emptyPurl ∧
    PurlError.parseError "parse purl: purl is missing the scheme separator" ≠
      .unsupportedPurlType ∧
    PurlToURL "pkg:mlflow/model@1.0.0" = .error .unsupportedPurlType := by
  have h := purl_to_url_error_taxonomy "not-a-valid-purl"
  have h2 := h.2.1 "purl is missing the scheme separator" (by decide) (by decide)
  exact ⟨h2.1, h2.2.1, h2.2.2, h.2.2.2.1⟩

/-- Reference resolution written from the words of section 4.4 of the
spec: among the four priority types in order, the first reference of
the current type anywhere in the document with a non-empty url wins, so
document position matters only within one type. -/
def specBestRefURL (refs : List cyclonedxextract.ExternalReference) : Option String :=
  cyclonedxextract.priorityOrder.findSome? fun t =>
    (refs.find? fun r => r.refType == t && r.url != "").map fun r => r.url

/-- URL resolution of a CycloneDX component written from the words of
the spec: the best external reference if any, else the purl mapper on a
non-empty purl with failures swallowed. -/
def specResolvedURL (c : cyclonedxextract.Component) : Option String :=
  match specBestRefURL c.externalReferences with
  | some u => some u
  | none => if c.purl ≠ "" then (PurlToURL c.purl).toOption else none

/-- Helper: the inner loop equals a first-match search over the
reference list. -/
theorem findRefOfType_eq_find? (t : String) (refs : List cyclonedxextract.ExternalReference) :
    cyclonedxextract.findRefOfType t refs =
      (refs.find? fun r => r.refType == t && r.url != "").map fun r => r.url := by
  induction refs with
  | nil => rfl
  | cons r rest ih =>
    unfold cyclonedxextract.findRefOfType
    by_cases h : r.refType = t ∧ r.url ≠ ""
    · have hb : (r.refType == t && r.url != "") = true := by simp [h.1, h.2]
      rw [if_pos h]
      simp [List.find?_cons, hb]
    · have hb : (r.refType == t && r.url != "") = false := by
        rw [Bool.eq_false_iff]
        simpa using h
      rw [if_neg h, ih]
      simp [List.find?_cons, hb]

/-- Helper: the outer loop equals a first-success search over the
priority types. -/
theorem findBestAux_eq_findSome? (refs : List cyclonedxextract.ExternalReference)
    (ts : List String) :
    cyclonedxextract.findBestAux refs ts =
      ts.findSome? (fun t => (refs.find? fun r => r.refType == t && r.url != "").map fun r => r.url) := by
  induction ts with
  | nil => rfl
  | cons t ts ih =>
    unfold cyclonedxextract.findBestAux
    rw [findRefOfType_eq_find? t refs]
    cases hfind : (refs.find? fun r => r.refType == t && r.url != "").map fun r => r.url with
    | none => simp [List.findSome?_cons, hfind, ih]
    | some u => simp [List.findSome?_cons, hfind]

/-- Helper: the implementation scan equals the spec-side scan. -/
theorem findBest_eq_spec (refs : List cyclonedxextract.ExternalReference) :
    cyclonedxextract.findBestExternalRefURL refs = specBestRefURL refs := by
  unfold cyclonedxextract.findBestExternalRefURL
  split
  · next h =>
    have : refs = [] := by simpa using h
    subst this
    rfl
  · exact findBestAux_eq_findSome? refs cyclonedxextract.priorityOrder

/-- C3: for every CycloneDX component the resolved url is the one of
the first external reference by priority type (outer) and document
order (inner) with a non-empty url, so a higher-priority type occurring
later still beats a lower-priority type occurring earlier, as the
closed instance with vcs, documentation, website in document order
shows; with no matching reference a non-empty purl is mapped, mapper
failures yielding no url rather than an error. -/
theorem cyclonedx_url_priority_resolution :
    (∀ c : cyclonedxextract.Component,
      (cyclonedxextract.attributionOfComponent c).url = specResolvedURL c) ∧
    cyclonedxextract.findBestExternalRefURL
        [{ refType := "vcs", url := "https://v.example" },
         { refType := "documentation", url := "https://d.example" },
         { refType := "website", url := "https://w.example" }] = some "https://w.example" := by
  constructor
  · intro c
    unfold cyclonedxextract.attributionOfComponent specResolvedURL
    simp only
    rw [findBest_eq_spec]
    cases hb : specBestRefURL c.externalReferences with
    | some u => simp
    | none =>
      simp only
      split
      · cases hp : PurlToURL c.purl <;> simp [Except.toOption]
      · rfl
  · decide

/-- Subsequence of first attributions per key, written from the words
of section 4.6 of the spec: keep each head and drop every later entry
sharing its key, recursively. -/
def firstPerKey : List Attribution → List Attribution
  | [] => []
  | a :: rest => a :: firstPerKey (rest.filter fun b => attrKey b != attrKey a)
  termination_by xs => xs.length
  decreasing_by
    simp only [List.length_cons]
    exact Nat.lt_succ_of_le (List.length_filter_le _ _)

/-- Helper: the single-pass loop with an explicit seen set computes the
first-per-key subsequence of the entries whose keys are unseen. -/
theorem deduplicateAux_eq (seen : List String) (xs : List Attribution) :
    DeduplicateAux seen xs = firstPerKey (xs.filter fun a => decide (attrKey a ∉ seen)) := by
  induction xs generalizing seen with
  | nil => simp [DeduplicateAux, firstPerKey]
  | cons a rest ih =>
    unfold DeduplicateAux
    by_cases h : attrKey a ∈ seen
    · rw [if_pos h, ih seen]
      have hfa : (a :: rest).filter (fun x => decide (attrKey x ∉ seen)) =
          rest.filter (fun x => decide (attrKey x ∉ seen)) := by
        simp [List.filter_cons, h]
      rw [hfa]
    · rw [if_neg h, ih (attrKey a :: seen)]
      have hfa : (a :: rest).filter (fun x => decide (attrKey x ∉ seen)) =
          a :: rest.filter (fun x => decide (attrKey x ∉ seen)) := by
        simp [List.filter_cons, h]
      rw [hfa, firstPerKey]
      congr 1
      rw [List.filter_filter]
      congr 1
      apply List.filter_congr
      intro x _
      by_cases h1 : attrKey x = attrKey a <;> by_cases h2 : attrKey x ∈ seen <;>
        simp [h1, h2]

/-- Helper: the first-per-key subsequence really is a subsequence. -/
theorem firstPerKey_sublist_of_le (n : Nat) :
    ∀ xs : List Attribution, xs.length ≤ n → (firstPerKey xs).Sublist xs := by
  induction n with
  | zero =>
    intro xs h
    have : xs = [] := List.eq_nil_of_length_eq_zero (Nat.le_zero.mp h)
    subst this
    simp [firstPerKey]
  | succ n ih =>
    intro xs h
    match xs with
    | [] => simp [firstPerKey]
    | a :: rest =>
      rw [firstPerKey]
      apply List.Sublist.cons₂
      have h1 : (rest.filter fun b => attrKey b != attrKey a).length ≤ n :=
        le_trans (List.length_filter_le _ _) (by simpa using Nat.le_of_succ_le_succ h)
      exact (ih _ h1).trans (List.filter_sublist rest)

/-- C6: Deduplicate keys each entry by purl-else-name and returns
exactly the subsequence of first attributions per key in original
order; later duplicates are dropped entirely, their fields discarded,
and the output is always a list. -/
theorem deduplicate_first_per_key (xs : List Attribution) :
    Deduplicate xs = firstPerKey xs ∧ (Deduplicate xs).Sublist xs := by
  have h : Deduplicate xs = firstPerKey xs := by
    show DeduplicateAux [] xs = firstPerKey xs
    have h0 := deduplicateAux_eq [] xs
    simpa using h0
  exact ⟨h, h ▸ firstPerKey_sublist_of_le xs.length xs le_rfl⟩

/-- Helper: appending an attribution whose key was already seen or
occurs in the list leaves the deduplication loop output unchanged. -/
theorem deduplicateAux_append_dup (seen : List String) (xs : List Attribution) (b : Attribution)
    (h : attrKey b ∈ seen ∨ ∃ a ∈ xs, attrKey a = attrKey b) :
    DeduplicateAux seen (xs ++ [b]) = DeduplicateAux seen xs := by
  induction xs generalizing seen with
  | nil =>
    rcases h with h | ⟨a, ha, _⟩
    · simp [DeduplicateAux, h]
    · exact absurd ha (List.not_mem_nil a)
  | cons x rest ih =>
    simp only [List.cons_append]
    unfold DeduplicateAux
    by_cases hx : attrKey x ∈ seen
    · rw [if_pos hx, if_pos hx]
      apply ih
      rcases h with h | ⟨a, ha, hk⟩
      · exact Or.inl h
      · rcases List.mem_cons.mp ha with rfl | ha2
        · exact Or.inl (hk ▸ hx)
        · exact Or.inr ⟨a, ha2, hk⟩
    · rw [if_neg hx, if_neg hx]
      congr 1
      apply ih
      rcases h with h | ⟨a, ha, hk⟩
      · exact Or.inl (List.mem_cons_of_mem _ h)
      · rcases List.mem_cons.mp ha with rfl | ha2
        · exact Or.inl (hk ▸ List.mem_cons_self _ _)
        · exact Or.inr ⟨a, ha2, hk⟩

/-- Helper: when every key in the list was already seen, the loop drops
everything. -/
theorem deduplicateAux_all_seen (seen : List String) (xs : List Attribution)
    (h : ∀ x ∈ xs, attrKey x ∈ seen) : DeduplicateAux seen xs = [] := by
  induction xs with
  | nil => rfl
  | cons x rest ih =>
    unfold DeduplicateAux
    rw [if_pos (h x (List.mem_cons_self x rest))]
    exact ih fun y hy => h y (List.mem_cons_of_mem x hy)

/-- C9: the key space mixes purl-derived and name-derived keys: any
later attribution whose key string-equals an earlier one's key is
dropped, even across the two key sources, as when an empty-purl entry
whose name equals an earlier entry's purl is dropped; and all entries
with empty purl and empty name collapse onto the first one. -/
theorem deduplicate_key_space_collapse :
    (∀ (xs : List Attribution) (b : Attribution), (∃ a ∈ xs, attrKey a = attrKey b) →
      Deduplicate (xs ++ [b]) = Deduplicate xs) ∧
    (∀ a b : Attribution, a.purl ≠ "" → b.purl = "" → b.name = a.purl →
      Deduplicate [a, b] = [a]) ∧
    (∀ xs : List Attribution, (∀ x ∈ xs, x.purl = "" ∧ x.name = "") →
      Deduplicate xs = xs.take 1) := by
  refine ⟨?_, ?_, ?_⟩
  · intro xs b h
    exact deduplicateAux_append_dup [] xs b (Or.inr h)
  · intro a b ha hb hn
    simp [Deduplicate, DeduplicateAux, attrKey, ha, hb, hn]
  · intro xs h
    cases xs with
    | nil => rfl
    | cons x rest =>
      show DeduplicateAux [] (x :: rest) = [x]
      unfold DeduplicateAux
      rw [if_neg (List.not_mem_nil _)]
      have hx := h x (List.mem_cons_self x rest)
      have : DeduplicateAux [attrKey x] rest = [] := by
        apply deduplicateAux_all_seen
        intro y hy
        have hyk := h y (List.mem_cons_of_mem x hy)
        simp [attrKey, hx.1, hx.2, hyk.1, hyk.2]
      rw [this]

/-- Witness for C9: a name-keyed entry colliding with a purl-keyed one
is dropped, and nameless purlless entries collapse onto the first. -/
theorem deduplicate_key_space_collapse_witness :
    Deduplicate [{ name := "libfoo", purl := "pkg:npm/libfoo" },
                 { name := "pkg:npm/libfoo", purl := "" }] =
      [{ name := "libfoo", purl := "pkg:npm/libfoo" }] ∧
    Deduplicate [{ name := "", license := some "MIT", purl := "" }, { name := "", purl := "" }] =
      [{ name := "", license := some "MIT", purl := "" }] := by
  constructor
  · exact deduplicate_key_space_collapse.2.1
      { name := "libfoo", purl := "pkg:npm/libfoo" }
      { name := "pkg:npm/libfoo", purl := "" } (by decide) (by decide) (by decide)
  · exact deduplicate_key_space_collapse.2.2
      [{ name := "", license := some "MIT", purl := "" }, { name := "", purl := "" }] (by decide)

/-- Concatenation of the attributions of the successfully read and
processed inputs of a batch, in caller-supplied order, written from the
words of section 4.7 of the spec: failed reads and failed processing
contribute nothing. -/
def collectedAttrs (fs : String → Option RawData) : List String → List Attribution
  | [] => []
  | f :: rest =>
    (match fs f with
     | none => []
     | some d =>
       match Process false d with
       | .ok attrs => attrs
       | .error _ => []) ++ collectedAttrs fs rest

/-- Helper: without cancellation the batch loop returns the empty-batch
error or the deduplicated concatenation of the accumulator and the
remaining successes. -/
theorem processFilesAux_no_cancel (fs : String → Option RawData) (files : List String) :
    ∀ (i : Nat) (acc : List Attribution),
      ProcessFilesAux (fun _ => false) fs i acc files =
        if acc ++ collectedAttrs fs files = [] then .error .noAttributionsExtracted
        else .ok (Deduplicate (acc ++ collectedAttrs fs files)) := by
  induction files with
  | nil =>
    intro i acc
    simp [ProcessFilesAux, collectedAttrs]
  | cons f rest ih =>
    intro i acc
    unfold ProcessFilesAux collectedAttrs
    simp only [Bool.false_eq_true, if_false]
    cases hf : fs f with
    | none =>
      rw [ih]
      simp
    | some d =>
      cases hp : Process false d with
      | error e =>
        simp only [hp]
        rw [ih]
        simp
      | ok attrs =>
        simp only [hp]
        rw [ih]
        simp [List.append_assoc]

/-- C7: without cancellation a per-input read or processing failure is
skipped rather than aborting the batch; the call succeeds with the
deduplicated concatenation of the successful inputs whenever that
concatenation is non-empty, and fails with the empty-batch error when
no input yields any attribution. -/
theorem process_files_batch_behavior (fs : String → Option RawData) (files : List String) :
    ProcessFiles (fun _ => false) fs files =
      if collectedAttrs fs files = [] then .error .noAttributionsExtracted
      else .ok (Deduplicate (collectedAttrs fs files)) := by
  have h := processFilesAux_no_cancel fs files 0 []
  simpa using h

/-- Counterexample for C8: with an empty input list the already-set
cancellation token is never consulted, and the call returns the
empty-batch error, not the cancellation error. -/
theorem process_files_cancelled_empty_counterexample :
    ProcessFiles (fun _ => true) (fun _ => none) [] = .error .noAttributionsExtracted ∧
    SbomError.noAttributionsExtracted ≠ SbomError.cancelled := by
  constructor
  · decide
  · decide

/-- C8 as amended: for every non-empty input list, a cancellation token
already set at the call returns the cancellation error before any
per-input work, with no partial results, whatever the filesystem
holds; the loop checks the token before each input. -/
theorem process_files_cancelled_amended (ctx : Nat → Bool) (fs : String → Option RawData)
    (files : List String) (hne : files ≠ []) (hc : ctx 0 = true) :
    ProcessFiles ctx fs files = .error .cancelled := by
  cases files with
  | nil => exact absurd rfl hne
  | cons f rest =>
    show ProcessFilesAux ctx fs 0 [] (f :: rest) = .error .cancelled
    unfold ProcessFilesAux
    rw [if_pos hc]

/-- Witness for C8 as amended: a one-element batch with a pre-set token
over a filesystem of unreadable files. -/
theorem process_files_cancelled_amended_witness :
    ProcessFiles (fun _ => true) (fun _ => none) ["input.json"] = .error .cancelled :=
  process_files_cancelled_amended (fun _ => true) (fun _ => none) ["input.json"]
    (by decide) rfl

/-- Counterexample for C10: a well-formed outer SPDX document whose
sbom value is the non-object null is detected as spdx and parses
successfully into the zero document, instead of failing with a parse
error as claimed for every non-object sbom value. -/
theorem spdx_sbom_null_unwrap_counterexample :
    sbom.DetectFormat (.json (.obj [("sbom", .null), ("spdxVersion", .str "SPDX-2.3"),
        ("SPDXID", .str "SPDXRef-DOCUMENT"), ("packages", .arr [])])) = .ok "spdx" ∧
    Json.isObj .null = false ∧
    spdxextract.ParseSBOM (.json (.obj [("sbom", .null), ("spdxVersion", .str "SPDX-2.3"),
        ("SPDXID", .str "SPDXRef-DOCUMENT"), ("packages", .arr [])])) =
      .ok { spdxVersion := "", spdxID := "", packages := none } := by
  refine ⟨by decide, by decide, by decide⟩

/-- C10 as amended: the SPDX parser substitutes the value of a
top-level sbom key unconditionally, so with a non-object, non-null sbom
value ParseSBOM fails with a parse error even when the outer object is
well-formed SPDX (a null sbom value instead parses into the zero
document); the detector unwraps only object sbom values and classifies
such inputs from the outer map, so an input can be detected as spdx yet
fail to parse, as the concrete instance in the witness shows. -/
theorem sbom_envelope_unwrap_amended (fields : List (String × Json)) (v : Json)
    (hl : lookupField fields "sbom" = some v) (hobj : v.isObj = false) :
    spdxextract.unwrapGitHubSBOM (.json (.obj fields)) = .ok v ∧
    (v.isNull = false → ∃ msg, spdxextract.ParseSBOM (.json (.obj fields)) = .error msg) ∧
    sbom.DetectFormat (.json (.obj fields)) = sbom.classifyFields fields := by
  have hunwrap : spdxextract.unwrapGitHubSBOM (.json (.obj fields)) = .ok v := by
    unfold spdxextract.unwrapGitHubSBOM
    simp only [Json.asMapFields, hl]
  refine ⟨hunwrap, ?_, ?_⟩
  · intro hnull
    unfold spdxextract.ParseSBOM
    rw [hunwrap]
    cases v with
    | null => simp [Json.isNull] at hnull
    | obj o => simp [Json.isObj] at hobj
    | bool b => exact ⟨_, rfl⟩
    | num n => exact ⟨_, rfl⟩
    | str s => exact ⟨_, rfl⟩
    | arr l => exact ⟨_, rfl⟩
  · unfold sbom.DetectFormat
    simp only [Json.asMapFields, hl]
    cases v with
    | obj o => simp [Json.isObj] at hobj
    | null => rfl
    | bool b => rfl
    | num n => rfl
    | str s => rfl
    | arr l => rfl

/-- Witness for C10 as amended, at an outer object carrying a
spdxVersion marker and a numeric sbom value: the number is substituted,
parsing fails, and detection still reports spdx from the outer map. -/
theorem sbom_envelope_unwrap_amended_witness :
    spdxextract.unwrapGitHubSBOM
        (.json (.obj [("sbom", .num 42), ("spdxVersion", .str "SPDX-2.3")])) = .ok (.num 42) ∧
    (∃ msg, spdxextract.ParseSBOM
        (.json (.obj [("sbom", .num 42), ("spdxVersion", .str "SPDX-2.3")])) = .error msg) ∧
    sbom.DetectFormat (.json (.obj [("sbom", .num 42), ("spdxVersion", .str "SPDX-2.3")])) =
      sbom.classifyFields [("sbom", .num 42), ("spdxVersion", .str "SPDX-2.3")] ∧
    sbom.DetectFormat (.json (.obj [("sbom", .num 42), ("spdxVersion", .str "SPDX-2.3")])) =
      .ok "spdx" := by
  have h := sbom_envelope_unwrap_amended
    [("sbom", .num 42), ("spdxVersion", .str "SPDX-2.3")] (.num 42) rfl rfl
  exact ⟨h.1, h.2.1 rfl, h.2.2, by decide⟩

end SbomAttr
